import Mathlib

/-!
Shallow embedding of the cohort stratifier in `src/apoe_toolkit/stratifier.py`.

A pandas DataFrame is modelled as a `Frame`: per-column presence flags for the
columns the code inspects by name, plus a list of rows whose field values are
meaningful only when the corresponding column is present.  Machine integers are
`Int` (Python ints are unbounded), `float` carrier ratios are `Rat` (the code
only ever multiplies and truncates, and the claims use exactly representable
fractions), and the fallible `stratify` returns `Except`.  The wall-clock year
read for the birth-year derivation is an explicit parameter `y`.
-/

namespace ApoeToolkit

/-- A closed age interval, as one entry of a configured age-band list. -/
abbrev Band := Int × Int

/-- Two closed integer intervals share no point (non-overlapping bands). -/
def BandDisjoint (b1 b2 : Band) : Prop := b1.2 < b2.1 ∨ b2.2 < b1.1

instance (b1 b2 : Band) : Decidable (BandDisjoint b1 b2) := by
  unfold BandDisjoint; infer_instance

/-- One row of the caller's cohort table.  A field value is meaningful only
when the matching column-presence flag of the enclosing `Frame` is set. -/
structure RawRow where
  sample_id : String
  apoe_genotype : String
  gender : String
  sex : String
  age : Int
  year_of_birth : Int
deriving DecidableEq, Repr

/-- A cohort DataFrame: which of the columns the code addresses by name are
present, plus the rows. -/
structure Frame where
  hasSampleId : Bool
  hasGenotype : Bool
  hasGender : Bool
  hasSex : Bool
  hasAge : Bool
  hasYearOfBirth : Bool
  rows : List RawRow
deriving DecidableEq, Repr

/-- The default age-band list installed by `StratificationConfig.__post_init__`
for a gender whose band list was left as `None`. -/
def defaultAgeBands : List Band :=
  [(35, 39), (40, 44), (45, 49), (50, 54), (55, 59), (60, 64), (65, 69)]

/-- `StratificationConfig` dataclass.  `apoeCarrierFraction` renders the float
field `apoe_carrier_ratio`. -/
structure StratificationConfig where
  studyName : String := "Unnamed Study"
  targetFemaleCount : Int := 640
  targetMaleCount : Int := 176
  apoeCarrierFraction : Rat := mkRat 1 2
  excludeE2Carriers : Bool := true
  femaleAgeBands : Option (List Band) := none
  maleAgeBands : Option (List Band) := none
deriving DecidableEq, Repr

/-- `__post_init__`: a band list left as `None` is replaced by the default
seven bands. -/
def StratificationConfig.postInit (c : StratificationConfig) : StratificationConfig :=
  { c with
    femaleAgeBands := some (c.femaleAgeBands.getD defaultAgeBands)
    maleAgeBands := some (c.maleAgeBands.getD defaultAgeBands) }

/-- A processed row once the four required columns are resolved. -/
structure Row where
  sample_id : String
  apoe_genotype : String
  gender : String
  age : Int
deriving DecidableEq, Repr

/-- Project the four resolved columns out of a raw row. -/
def projectRow (r : RawRow) : Row :=
  ⟨r.sample_id, r.apoe_genotype, r.gender, r.age⟩

/-- `df = df.rename(columns={sex: "gender"})` when gender is absent and a sex
column is present. -/
def renameSexToGender (f : Frame) : Frame :=
  if !f.hasGender && f.hasSex then
    { f with
      hasGender := true
      hasSex := false
      rows := f.rows.map (fun r => { r with gender := r.sex }) }
  else f

/-- `df["age"] = current_year - df["year_of_birth"]`: an in-place column write
deriving age from birth year. -/
def writeAgeColumn (y : Int) (f : Frame) : Frame :=
  { f with
    hasAge := true
    rows := f.rows.map (fun r => { r with age := y - r.year_of_birth }) }

/-- The column-normalisation prologue of `stratify`: rename sex to gender, then
derive age from birth year when age is absent. -/
def deriveFrame (cohort : Frame) (y : Int) : Frame :=
  let df := renameSexToGender cohort
  if !df.hasAge && df.hasYearOfBirth then writeAgeColumn y df else df

/-- The four required column names checked by `stratify`. -/
def requiredColumns : List String := ["sample_id", "apoe_genotype", "gender", "age"]

/-- Whether a required column is present in a (already normalised) frame. -/
def hasColumn (f : Frame) (c : String) : Bool :=
  if c = "sample_id" then f.hasSampleId
  else if c = "apoe_genotype" then f.hasGenotype
  else if c = "gender" then f.hasGender
  else if c = "age" then f.hasAge
  else false

/-- `missing = required - set(df.columns)` (in the fixed order of
`requiredColumns`; only membership in the set is observable). -/
def missingOf (df : Frame) : List String :=
  requiredColumns.filter (fun c => !(hasColumn df c))

/-- Whether a required field of the raw cohort table is resolvable by the
normalisation prologue: sample id and genotype directly, gender also through a
sex column, age also through a birth-year column. -/
def resolvable (cohort : Frame) (c : String) : Bool :=
  if c = "sample_id" then cohort.hasSampleId
  else if c = "apoe_genotype" then cohort.hasGenotype
  else if c = "gender" then cohort.hasGender || cohort.hasSex
  else if c = "age" then cohort.hasAge || cohort.hasYearOfBirth
  else false

/-- The error raised by `stratify`: `ValueError(f"Missing required columns:
{missing}")`, the `ConfigurationError`-class condition of the design. -/
inductive StratifyError where
  | missingColumns : List String → StratifyError
deriving DecidableEq, Repr

/-- Lower-cased character list of a string. -/
def lowerChars (s : String) : List Char := s.toList.map Char.toLower

/-- Whether `pat` occurs as a contiguous sublist of `l`. -/
def listContains (pat l : List Char) : Bool := l.tails.any (fun t => pat.isPrefixOf t)

/-- `Series.str.contains(pat, case=False)` for a plain (non-regex-meta)
pattern: case-insensitive substring containment. -/
def containsCI (s pat : String) : Bool := listContains (lowerChars pat) (lowerChars s)

/-- `is_e4_carrier` column: genotype contains "e4", case-insensitively. -/
def isE4Carrier (r : Row) : Bool := containsCI r.apoe_genotype "e4"

/-- `Series.str.upper()`: upper-case every character of the string (a
character-list map, equivalent to mapping the whole string). -/
def strUpper (s : String) : String := ⟨s.toList.map Char.toUpper⟩

/-- Female-arm gender match: upper-cased gender is in {"F", "FEMALE", "2"}. -/
def isFemaleGender (g : String) : Bool :=
  strUpper g == "F" || strUpper g == "FEMALE" || strUpper g == "2"

/-- Male-arm gender match: upper-cased gender is in {"M", "MALE", "1"}. -/
def isMaleGender (g : String) : Bool :=
  strUpper g == "M" || strUpper g == "MALE" || strUpper g == "1"

/-- The two exclusion filters of `stratify`: the optional case-insensitive e2
substring exclusion, then the exact "Indeterminate" sentinel exclusion. -/
def postExclusion (df : Frame) (config : StratificationConfig) : List Row :=
  let df0 := df.rows.map projectRow
  let df1 :=
    if config.excludeE2Carriers then
      df0.filter (fun r => !(containsCI r.apoe_genotype "e2"))
    else df0
  df1.filter (fun r => r.apoe_genotype != "Indeterminate")

/-- `n_carriers = int(target_count * carrier_ratio)`.  Python `int()`
truncates toward zero; on the exact rational product
`targetCount * f = (targetCount * f.num) / f.den` this is `Int.tdiv` of the
scaled numerator by the (positive) denominator.  Working on numerator and
denominator keeps the definition kernel-reducible (`Rat` normalisation is
not). -/
def nCarrierTarget (targetCount : Int) (carrierFraction : Rat) : Int :=
  (targetCount * carrierFraction.num).tdiv (carrierFraction.den : Int)

/-- `n_non_carriers = target_count - n_carriers`. -/
def nNonCarrierTarget (targetCount : Int) (carrierFraction : Rat) : Int :=
  targetCount - nCarrierTarget targetCount carrierFraction

/-- `DataFrame.head(n)` on a list: first `n` rows for `n ≥ 0`, all but the
last `-n` rows for negative `n`. -/
def pdHead (n : Int) (l : List α) : List α :=
  if 0 ≤ n then l.take n.toNat else l.take (l.length - (-n).toNat)

/-- Whether a row's age lies in the closed band `[lo, hi]`. -/
def inBand (b : Band) (r : Row) : Bool := decide (b.1 ≤ r.age ∧ r.age ≤ b.2)

/-- `per_band = max(1, target // len(age_bands))` of `_sample_by_age_bands`. -/
def perBandQuota (target : Int) (bandCount : Nat) : Int :=
  max 1 (Int.fdiv target (bandCount : Int))

/-- The per-band selections of `_sample_by_age_bands`.  The loop's
`1 if i < remainder else 0` extra slot is rendered by decrementing the
remaining extra-slot budget at each band: band `i` gets the extra slot exactly
when `0 < remainder - i`. -/
def bandTakes (df : List Row) (perBand : Int) : Int → List Band → List (List Row)
  | _, [] => []
  | remainder, b :: bs =>
    let bandDf := df.filter (inBand b)
    let n := perBand + (if 0 < remainder then 1 else 0)
    pdHead (min n (bandDf.length : Int)) bandDf :: bandTakes df perBand (remainder - 1) bs

/-- The list of per-band selections for a group, with the quota and remainder
computed as in `_sample_by_age_bands`. -/
def bandParts (df : List Row) (target : Int) (ageBands : List Band) : List (List Row) :=
  let pb := perBandQuota target ageBands.length
  bandTakes df pb (target - pb * (ageBands.length : Int)) ageBands

/-- `_sample_by_age_bands`: concatenate the per-band selections in band
order. -/
def sampleByAgeBands (df : List Row) (target : Int) (ageBands : List Band) : List Row :=
  (bandParts df target ageBands).flatten

/-- Python truthiness of the `age_bands` argument: `None` and `[]` are falsy. -/
def bandsTruthy : Option (List Band) → Bool
  | none => false
  | some l => !l.isEmpty

/-- One group's selection inside `_select_arm`: banded sampling when the band
list is truthy, otherwise `head(min(sub_target, len(group)))`. -/
def groupSelect (group : List Row) (subTarget : Int) (ageBands : Option (List Band)) :
    List Row :=
  if bandsTruthy ageBands then sampleByAgeBands group subTarget (ageBands.getD [])
  else pdHead (min subTarget (group.length : Int)) group

/-- `RecallList` dataclass; the summary dict is an association list in
insertion order. -/
structure RecallList where
  armName : String
  participants : List Row
  summary : List (String × Int)
deriving DecidableEq, Repr

/-- Value of a summary key (0 when absent, which never happens for the six
keys `_select_arm` writes). -/
def summaryGet (l : RecallList) (k : String) : Int := ((l.summary).lookup k).getD 0

/-- `_select_arm`: split the arm pool into carriers and non-carriers, compute
the two sub-targets, select each group, and concatenate carriers first. -/
def selectArm (df : List Row) (armName : String) (targetCount : Int)
    (carrierFraction : Rat) (ageBands : Option (List Band)) : RecallList :=
  let carriers := df.filter (fun r => isE4Carrier r)
  let nonCarriers := df.filter (fun r => !(isE4Carrier r))
  let selectedCarriers := groupSelect carriers (nCarrierTarget targetCount carrierFraction) ageBands
  let selectedNon := groupSelect nonCarriers (nNonCarrierTarget targetCount carrierFraction) ageBands
  let combined := selectedCarriers ++ selectedNon
  { armName := armName
    participants := combined
    summary := [("target", targetCount),
      ("selected", (combined.length : Int)),
      ("e4_carriers", (selectedCarriers.length : Int)),
      ("non_carriers", (selectedNon.length : Int)),
      ("available_carriers", (carriers.length : Int)),
      ("available_non_carriers", (nonCarriers.length : Int))] }

/-- `StratificationResult` dataclass. -/
structure StratificationResult where
  config : StratificationConfig
  femaleList : Option RecallList
  maleList : Option RecallList
  excludedCount : Nat
  totalEligible : Nat
deriving DecidableEq, Repr

/-- The `total_selected` property: sum of the arm sizes, zero for an omitted
arm. -/
def StratificationResult.totalSelected (res : StratificationResult) : Nat :=
  (match res.femaleList with
   | none => 0
   | some l => l.participants.length) +
  (match res.maleList with
   | none => 0
   | some l => l.participants.length)

/-- The eligible female group of a run. -/
def femaleGroup (cohort : Frame) (config : StratificationConfig) (y : Int) : List Row :=
  (postExclusion (deriveFrame cohort y) config).filter (fun r => isFemaleGender r.gender)

/-- The eligible male group of a run. -/
def maleGroup (cohort : Frame) (config : StratificationConfig) (y : Int) : List Row :=
  (postExclusion (deriveFrame cohort y) config).filter (fun r => isMaleGender r.gender)

/-- The result built on the non-error path of `stratify`: each arm is present
exactly when its group is non-empty and its target is positive. -/
def runResult (cohort : Frame) (config : StratificationConfig) (y : Int) :
    StratificationResult :=
  { config := config
    femaleList :=
      if femaleGroup cohort config y ≠ [] ∧ 0 < config.targetFemaleCount then
        some (selectArm (femaleGroup cohort config y) "Female" config.targetFemaleCount
          config.apoeCarrierFraction config.femaleAgeBands)
      else none
    maleList :=
      if maleGroup cohort config y ≠ [] ∧ 0 < config.targetMaleCount then
        some (selectArm (maleGroup cohort config y) "Male" config.targetMaleCount
          config.apoeCarrierFraction config.maleAgeBands)
      else none
    excludedCount :=
      (deriveFrame cohort y).rows.length - (postExclusion (deriveFrame cohort y) config).length
    totalEligible := (postExclusion (deriveFrame cohort y) config).length }

/-- `CohortStratifier.stratify`: raise when a required column is missing after
normalisation, otherwise return the assembled result. -/
def stratify (cohort : Frame) (config : StratificationConfig) (y : Int) :
    Except StratifyError StratificationResult :=
  if (missingOf (deriveFrame cohort y)).isEmpty then .ok (runResult cohort config y)
  else .error (.missingColumns (missingOf (deriveFrame cohort y)))

/-- `stratify`, tracking the caller's frame alongside the returned value.  The
first statement `df = cohort.copy()` severs any alias between `df` and the
caller's frame, so the later in-place column writes never reach it; the flag
`dfAliasesCaller` records that alias state at the one in-place write executed
on a frame that descends from the caller's table (the later
`is_e4_carrier` write targets a frame rebuilt by boolean-mask indexing, which
never aliases the input). -/
def stratifyPair (cohort : Frame) (config : StratificationConfig) (y : Int) :
    Frame × Except StratifyError StratificationResult :=
  -- df = cohort.copy()
  let dfAliasesCaller : Bool := false
  -- df = df.rename(...): rebinding to a fresh frame, no in-place write
  let dfR := renameSexToGender cohort
  -- df["age"] = current_year - df["year_of_birth"]: in place; it reaches the
  -- caller's frame only through a surviving alias
  let callerFrame :=
    if dfAliasesCaller && (!dfR.hasAge && dfR.hasYearOfBirth) then writeAgeColumn y cohort
    else cohort
  (callerFrame, stratify cohort config y)

/-- The participants of an optional arm, empty when the arm is omitted. -/
def armParticipants : Option RecallList → List Row
  | none => []
  | some l => l.participants

/-- The concatenation of both arms' selections. -/
def allSelected (res : StratificationResult) : List Row :=
  armParticipants res.femaleList ++ armParticipants res.maleList

/-- Hypothesis shape for a configured optional band list: whatever list is
present is pairwise non-overlapping. -/
def OptBandsDisjoint (o : Option (List Band)) : Prop :=
  ∀ l, o = some l → l.Pairwise BandDisjoint

/-- The configuration produced by `StratificationConfig()` with every field
left at its default. -/
def defaultConfig : StratificationConfig := StratificationConfig.postInit {}

/-! ### Concrete instances used by closed corollaries -/

/-- A raw cohort row with only the resolved columns populated. -/
def wRow (sid gt gen : String) (a : Int) : RawRow := ⟨sid, gt, gen, "", a, 0⟩

/-- A small six-row cohort with two eligible records per gender arm. -/
def wFrame : Frame :=
  ⟨true, true, true, false, true, false,
    [wRow "S1" "e3/e4" "F" 40, wRow "S2" "e3/e3" "F" 41, wRow "S3" "e3/e4" "M" 50,
     wRow "S4" "e3/e3" "M" 51, wRow "S5" "e2/e4" "F" 42, wRow "S6" "Indeterminate" "F" 43]⟩

/-- A small study configuration with the default age bands. -/
def wConfig : StratificationConfig :=
  StratificationConfig.postInit ⟨"W", 4, 2, mkRat 1 2, true, none, none⟩

/-- A cohort frame lacking both the age and the birth-year column. -/
def wNoAgeFrame : Frame :=
  ⟨true, true, true, false, false, false, [wRow "S1" "e3/e4" "F" 0]⟩

/-- A row selected by the small runs above. -/
def wSelRow : Row := ⟨"S1", "e3/e4", "F", 40⟩

/-- A group with exactly one eligible record in each default age band. -/
def wBandDf : List Row :=
  [⟨"A1", "e3/e3", "F", 36⟩, ⟨"A2", "e3/e3", "F", 41⟩, ⟨"A3", "e3/e3", "F", 46⟩,
   ⟨"A4", "e3/e3", "F", 51⟩, ⟨"A5", "e3/e3", "F", 56⟩, ⟨"A6", "e3/e3", "F", 61⟩,
   ⟨"A7", "e3/e3", "F", 66⟩]

/-- An arm pool with five carriers and five non-carriers. -/
def wQuotaDf : List Row :=
  [⟨"C1", "e3/e4", "F", 40⟩, ⟨"C2", "e3/e4", "F", 41⟩, ⟨"C3", "e3/e4", "F", 42⟩,
   ⟨"C4", "e3/e4", "F", 43⟩, ⟨"C5", "e3/e4", "F", 44⟩,
   ⟨"N1", "e3/e3", "F", 40⟩, ⟨"N2", "e3/e3", "F", 41⟩, ⟨"N3", "e3/e3", "F", 42⟩,
   ⟨"N4", "e3/e3", "F", 43⟩, ⟨"N5", "e3/e3", "F", 44⟩]

/-! ### Helper lemmas -/

theorem pdHead_sublist (n : Int) (l : List α) : (pdHead n l).Sublist l := by
  unfold pdHead
  split <;> exact List.take_sublist _ _

theorem mem_pdHead {n : Int} {l : List α} {a : α} (h : a ∈ pdHead n l) : a ∈ l :=
  (pdHead_sublist n l).subset h

theorem pdHead_length_le (n : Int) (l : List α) : (pdHead n l).length ≤ l.length :=
  (pdHead_sublist n l).length_le

theorem mem_bandTakes {df : List Row} {pb : Int} {bands : List Band} {r : Row} :
    ∀ {rm : Int}, r ∈ (bandTakes df pb rm bands).flatten →
      ∃ b ∈ bands, r ∈ df.filter (inBand b) := by
  induction bands with
  | nil => intro rm h; simp [bandTakes] at h
  | cons b bs ih =>
    intro rm h
    simp only [bandTakes, List.flatten_cons, List.mem_append] at h
    rcases h with h | h
    · exact ⟨b, List.mem_cons_self b bs, mem_pdHead h⟩
    · obtain ⟨b2, hb2, hr⟩ := ih h
      exact ⟨b2, List.mem_cons_of_mem b hb2, hr⟩

theorem mem_sampleByAgeBands {df : List Row} {t : Int} {bands : List Band} {r : Row}
    (h : r ∈ sampleByAgeBands df t bands) :
    ∃ b ∈ bands, r ∈ df ∧ inBand b r = true := by
  simp only [sampleByAgeBands, bandParts] at h
  obtain ⟨b, hb, hr⟩ := mem_bandTakes h
  exact ⟨b, hb, (List.mem_filter.mp hr).1, (List.mem_filter.mp hr).2⟩

theorem mem_groupSelect {g : List Row} {s : Int} {o : Option (List Band)} {r : Row}
    (h : r ∈ groupSelect g s o) : r ∈ g := by
  unfold groupSelect at h
  split at h
  · exact (mem_sampleByAgeBands h).choose_spec.2.1
  · exact mem_pdHead h

theorem selectArm_parts (df : List Row) (nm : String) (t : Int) (f : Rat)
    (o : Option (List Band)) :
    (selectArm df nm t f o).participants =
      groupSelect (df.filter (fun r => isE4Carrier r)) (nCarrierTarget t f) o ++
      groupSelect (df.filter (fun r => !(isE4Carrier r))) (nNonCarrierTarget t f) o := rfl

theorem mem_selectArm {df : List Row} {nm : String} {t : Int} {f : Rat}
    {o : Option (List Band)} {r : Row}
    (h : r ∈ (selectArm df nm t f o).participants) : r ∈ df := by
  rw [selectArm_parts] at h
  rcases List.mem_append.mp h with h | h <;>
    exact (List.mem_filter.mp (mem_groupSelect h)).1

/-- Two rows of a list whose mapped sample ids are duplicate-free and that
carry the same sample id are equal. -/
theorem sid_inj {base : List Row} (hnd : (base.map Row.sample_id).Nodup)
    {r1 r2 : Row} (h1 : r1 ∈ base) (h2 : r2 ∈ base)
    (h : r1.sample_id = r2.sample_id) : r1 = r2 :=
  List.inj_on_of_nodup_map hnd h1 h2 h

/-- Selections drawn from incompatible predicates over a duplicate-free base
have disjoint sample ids. -/
theorem sids_disjoint {base l1 l2 : List Row} {p q : Row → Bool}
    (hnd : (base.map Row.sample_id).Nodup)
    (h1 : ∀ r ∈ l1, r ∈ base ∧ p r = true)
    (h2 : ∀ r ∈ l2, r ∈ base ∧ q r = true)
    (hpq : ∀ r, ¬(p r = true ∧ q r = true)) :
    List.Disjoint (l1.map Row.sample_id) (l2.map Row.sample_id) := by
  intro s hs1 hs2
  obtain ⟨r1, hr1, hs1e⟩ := List.mem_map.mp hs1
  obtain ⟨r2, hr2, hs2e⟩ := List.mem_map.mp hs2
  obtain ⟨hb1, hp1⟩ := h1 r1 hr1
  obtain ⟨hb2, hp2⟩ := h2 r2 hr2
  have heq : r1 = r2 := sid_inj hnd hb1 hb2 (hs1e.trans hs2e.symm)
  exact hpq r1 ⟨hp1, heq ▸ hp2⟩

theorem sublist_sids_nodup {base l : List Row} (hs : l.Sublist base)
    (hnd : (base.map Row.sample_id).Nodup) : (l.map Row.sample_id).Nodup :=
  (hs.map Row.sample_id).nodup hnd

theorem inBand_not_both {b1 b2 : Band} (hd : BandDisjoint b1 b2) (r : Row) :
    ¬(inBand b1 r = true ∧ inBand b2 r = true) := by
  simp only [inBand, decide_eq_true_eq]
  rcases (show b1.2 < b2.1 ∨ b2.2 < b1.1 from hd) with h | h <;> omega

theorem bandTakes_sids_nodup {df : List Row} {pb : Int} {bands : List Band}
    (hnd : (df.map Row.sample_id).Nodup) (hd : bands.Pairwise BandDisjoint) :
    ∀ rm : Int, (((bandTakes df pb rm bands).flatten).map Row.sample_id).Nodup := by
  induction bands with
  | nil => intro rm; simp [bandTakes]
  | cons b bs ih =>
    intro rm
    simp only [bandTakes, List.flatten_cons, List.map_append]
    refine List.Nodup.append ?_ ?_ ?_
    · exact sublist_sids_nodup ((pdHead_sublist _ _).trans (List.filter_sublist _)) hnd
    · exact ih ((List.pairwise_cons.mp hd).2) (rm - 1)
    · refine sids_disjoint (p := inBand b)
        (q := fun r => bs.any (fun b2 => inBand b2 r)) hnd ?_ ?_ ?_
      · intro r hr
        have hf := mem_pdHead hr
        exact ⟨(List.mem_filter.mp hf).1, (List.mem_filter.mp hf).2⟩
      · intro r hr
        obtain ⟨b2, hb2, hrf⟩ := mem_bandTakes hr
        refine ⟨(List.mem_filter.mp hrf).1, ?_⟩
        exact List.any_eq_true.mpr ⟨b2, hb2, (List.mem_filter.mp hrf).2⟩
      · intro r ⟨hrb, hany⟩
        obtain ⟨b2, hb2, hrb2⟩ := List.any_eq_true.mp hany
        exact inBand_not_both ((List.pairwise_cons.mp hd).1 b2 hb2) r ⟨hrb, hrb2⟩

theorem filter_of_disjoint_band {df : List Row} {b b2 : Band} (hd : BandDisjoint b b2) :
    (df.filter (fun r => !(inBand b r))).filter (inBand b2) = df.filter (inBand b2) := by
  rw [List.filter_filter]
  refine List.filter_congr ?_
  intro r _
  cases h2 : inBand b2 r
  · simp
  · have hb : inBand b r = false := by
      cases h1 : inBand b r
      · rfl
      · exact absurd ⟨h1, h2⟩ (inBand_not_both hd r)
    simp [hb]

theorem bandTakes_filter_not {df : List Row} {pb : Int} {b : Band} {bands : List Band}
    (h : ∀ b2 ∈ bands, BandDisjoint b b2) :
    ∀ rm : Int,
      bandTakes (df.filter (fun r => !(inBand b r))) pb rm bands = bandTakes df pb rm bands := by
  induction bands with
  | nil => intro rm; rfl
  | cons b2 bs ih =>
    intro rm
    simp only [bandTakes]
    rw [filter_of_disjoint_band (h b2 (List.mem_cons_self b2 bs))]
    rw [ih (fun b3 hb3 => h b3 (List.mem_cons_of_mem b2 hb3)) (rm - 1)]

theorem length_filter_partition (p : α → Bool) (l : List α) :
    (l.filter p).length + (l.filter (fun a => !(p a))).length = l.length := by
  induction l with
  | nil => rfl
  | cons a t ih => cases h : p a <;> simp [List.filter_cons, h] <;> omega

theorem bandTakes_flatten_length_le {bands : List Band}
    (hd : bands.Pairwise BandDisjoint) :
    ∀ (df : List Row) (pb rm : Int),
      ((bandTakes df pb rm bands).flatten).length ≤ df.length := by
  induction bands with
  | nil => intro df pb rm; simp [bandTakes]
  | cons b bs ih =>
    intro df pb rm
    simp only [bandTakes, List.flatten_cons, List.length_append]
    have h1 := pdHead_length_le (min (pb + (if 0 < rm then 1 else 0))
      ((df.filter (inBand b)).length : Int)) (df.filter (inBand b))
    have h2 : ((bandTakes df pb (rm - 1) bs).flatten).length ≤
        (df.filter (fun r => !(inBand b r))).length := by
      rw [← bandTakes_filter_not (List.pairwise_cons.mp hd).1 (rm - 1)]
      exact ih (List.pairwise_cons.mp hd).2 _ pb (rm - 1)
    have h3 := length_filter_partition (inBand b) df
    omega

theorem groupSelect_length_le {g : List Row} {s : Int} {o : Option (List Band)}
    (hd : OptBandsDisjoint o) : (groupSelect g s o).length ≤ g.length := by
  unfold groupSelect
  split
  · next htr =>
    cases o with
    | none => simp [bandsTruthy] at htr
    | some l =>
      simp only [Option.getD_some, sampleByAgeBands, bandParts]
      exact bandTakes_flatten_length_le (hd l rfl) g _ _
  · exact pdHead_length_le _ _

theorem groupSelect_sids_nodup {g : List Row} {s : Int} {o : Option (List Band)}
    (hnd : (g.map Row.sample_id).Nodup) (hd : OptBandsDisjoint o) :
    ((groupSelect g s o).map Row.sample_id).Nodup := by
  unfold groupSelect
  split
  · next htr =>
    cases o with
    | none => simp [bandsTruthy] at htr
    | some l =>
      simp only [Option.getD_some, sampleByAgeBands, bandParts]
      exact bandTakes_sids_nodup hnd (hd l rfl) _
  · exact sublist_sids_nodup (pdHead_sublist _ _) hnd

theorem selectArm_sids_nodup {df : List Row} {nm : String} {t : Int} {f : Rat}
    {o : Option (List Band)}
    (hnd : (df.map Row.sample_id).Nodup) (hd : OptBandsDisjoint o) :
    (((selectArm df nm t f o).participants).map Row.sample_id).Nodup := by
  rw [selectArm_parts, List.map_append]
  refine List.Nodup.append ?_ ?_ ?_
  · exact groupSelect_sids_nodup (sublist_sids_nodup (List.filter_sublist df) hnd) hd
  · exact groupSelect_sids_nodup (sublist_sids_nodup (List.filter_sublist df) hnd) hd
  · refine sids_disjoint (p := fun r => isE4Carrier r)
      (q := fun r => !(isE4Carrier r)) hnd ?_ ?_ ?_
    · intro r hr; exact List.mem_filter.mp (mem_groupSelect hr)
    · intro r hr; exact List.mem_filter.mp (mem_groupSelect hr)
    · intro r ⟨h1, h2⟩; simp [h1] at h2

theorem female_male_incompat (g : String) :
    ¬(isFemaleGender g = true ∧ isMaleGender g = true) := by
  rintro ⟨h1, h2⟩
  simp only [isFemaleGender, Bool.or_eq_true, beq_iff_eq] at h1
  simp only [isMaleGender, Bool.or_eq_true, beq_iff_eq] at h2
  generalize strUpper g = s at h1 h2
  rcases h1 with (rfl | rfl) | rfl <;> simp at h2

theorem renameSexToGender_sids (f : Frame) :
    (renameSexToGender f).rows.map RawRow.sample_id = f.rows.map RawRow.sample_id := by
  unfold renameSexToGender
  split
  · simp [List.map_map, Function.comp]
  · rfl

theorem writeAgeColumn_sids (y : Int) (f : Frame) :
    (writeAgeColumn y f).rows.map RawRow.sample_id = f.rows.map RawRow.sample_id := by
  simp [writeAgeColumn, List.map_map, Function.comp]

theorem deriveFrame_sids (cohort : Frame) (y : Int) :
    (deriveFrame cohort y).rows.map RawRow.sample_id
      = cohort.rows.map RawRow.sample_id := by
  simp only [deriveFrame]
  split
  · rw [writeAgeColumn_sids, renameSexToGender_sids]
  · rw [renameSexToGender_sids]

theorem postExclusion_sublist (df : Frame) (k : StratificationConfig) :
    (postExclusion df k).Sublist (df.rows.map projectRow) := by
  unfold postExclusion
  refine (List.filter_sublist _).trans ?_
  split
  · exact List.filter_sublist _
  · exact List.Sublist.refl _

theorem eligible_sids_nodup {cohort : Frame} {k : StratificationConfig} {y : Int}
    (hnd : (cohort.rows.map RawRow.sample_id).Nodup) :
    ((postExclusion (deriveFrame cohort y) k).map Row.sample_id).Nodup := by
  have hbase : ((deriveFrame cohort y).rows.map projectRow).map Row.sample_id
      = cohort.rows.map RawRow.sample_id := by
    rw [List.map_map]
    have hcomp : (Row.sample_id ∘ projectRow) = RawRow.sample_id := rfl
    rw [hcomp, deriveFrame_sids]
  refine sublist_sids_nodup (postExclusion_sublist _ _) ?_
  rw [hbase]
  exact hnd

theorem stratify_ok {cohort : Frame} {k : StratificationConfig} {y : Int}
    {res : StratificationResult} (h : stratify cohort k y = .ok res) :
    res = runResult cohort k y := by
  unfold stratify at h
  split at h
  · exact (Except.ok.inj h).symm
  · exact Except.noConfusion h

theorem mem_armParticipants_if {c : Prop} [Decidable c] {grp : List Row}
    {nm : String} {t : Int} {f : Rat} {o : Option (List Band)} {r : Row}
    (h : r ∈ armParticipants (if c then some (selectArm grp nm t f o) else none)) :
    r ∈ grp := by
  split at h
  · exact mem_selectArm h
  · simp [armParticipants] at h

theorem pdHead_min_length (s : Int) (l : List α) (hs : 0 ≤ s) :
    (pdHead (min s (l.length : Int)) l).length = min s.toNat l.length := by
  unfold pdHead
  rw [if_pos (le_min hs (Int.natCast_nonneg l.length))]
  rw [List.length_take]
  omega

theorem selectArm_summary (df : List Row) (nm : String) (t : Int) (f : Rat)
    (o : Option (List Band)) :
    summaryGet (selectArm df nm t f o) "e4_carriers"
        = ((groupSelect (df.filter (fun r => isE4Carrier r))
            (nCarrierTarget t f) o).length : Int) ∧
    summaryGet (selectArm df nm t f o) "non_carriers"
        = ((groupSelect (df.filter (fun r => !(isE4Carrier r)))
            (nNonCarrierTarget t f) o).length : Int) ∧
    summaryGet (selectArm df nm t f o) "available_carriers"
        = ((df.filter (fun r => isE4Carrier r)).length : Int) ∧
    summaryGet (selectArm df nm t f o) "available_non_carriers"
        = ((df.filter (fun r => !(isE4Carrier r))).length : Int) :=
  ⟨rfl, rfl, rfl, rfl⟩

theorem bandTakes_ge_one {df : List Row} {pb : Int} (hpb : 1 ≤ pb) :
    ∀ (bands : List Band) (rm : Int),
      (∀ b ∈ bands, 1 ≤ (df.filter (inBand b)).length) →
      bands.length ≤ ((bandTakes df pb rm bands).flatten).length := by
  intro bands
  induction bands with
  | nil => intro rm _; simp [bandTakes]
  | cons b bs ih =>
    intro rm hb
    simp only [bandTakes, List.flatten_cons, List.length_append, List.length_cons]
    have hlen : 1 ≤ (df.filter (inBand b)).length := hb b (List.mem_cons_self b bs)
    have hn : 1 ≤ pb + (if 0 < rm then 1 else 0) := by split <;> omega
    have h1 : 1 ≤ (pdHead (min (pb + (if 0 < rm then 1 else 0))
        ((df.filter (inBand b)).length : Int)) (df.filter (inBand b))).length := by
      rw [pdHead_min_length _ _ (by omega)]
      omega
    have h2 := ih (rm - 1) (fun b2 hb2 => hb b2 (List.mem_cons_of_mem b hb2))
    omega

theorem bandTakes_map_length_one {df : List Row} :
    ∀ (bands : List Band) (rm : Int), rm ≤ 0 →
      (∀ b ∈ bands, 1 ≤ (df.filter (inBand b)).length) →
      (bandTakes df 1 rm bands).map List.length = List.replicate bands.length 1 := by
  intro bands
  induction bands with
  | nil => intro rm _ _; simp [bandTakes]
  | cons b bs ih =>
    intro rm hrm hb
    have hlen : 1 ≤ (df.filter (inBand b)).length := hb b (List.mem_cons_self b bs)
    simp only [bandTakes, List.map_cons, List.length_cons, List.replicate_succ]
    rw [if_neg (by omega : ¬(0 < rm))]
    simp only [List.cons.injEq]
    constructor
    · rw [pdHead_min_length _ _ (by omega)]
      omega
    · exact ih (rm - 1) (by omega) (fun b2 hb2 => hb b2 (List.mem_cons_of_mem b hb2))

theorem mem_selectArm_inBand {df : List Row} {nm : String} {t : Int} {f : Rat}
    {bands : List Band} (hne : bands ≠ []) {r : Row}
    (h : r ∈ (selectArm df nm t f (some bands)).participants) :
    ∃ b ∈ bands, inBand b r = true := by
  rw [selectArm_parts] at h
  have htr : bandsTruthy (some bands) = true := by
    simp [bandsTruthy, List.isEmpty_iff, hne]
  rcases List.mem_append.mp h with h1 | h1 <;>
  · unfold groupSelect at h1
    rw [if_pos htr] at h1
    simp only [Option.getD_some] at h1
    obtain ⟨b, hb, _, hband⟩ := mem_sampleByAgeBands h1
    exact ⟨b, hb, hband⟩

theorem deriveFrame_flags (cohort : Frame) (y : Int) :
    (deriveFrame cohort y).hasSampleId = cohort.hasSampleId ∧
    (deriveFrame cohort y).hasGenotype = cohort.hasGenotype ∧
    (deriveFrame cohort y).hasGender = (cohort.hasGender || cohort.hasSex) ∧
    (deriveFrame cohort y).hasAge = (cohort.hasAge || cohort.hasYearOfBirth) := by
  simp only [deriveFrame, renameSexToGender, writeAgeColumn]
  split <;> split <;>
    cases hg : cohort.hasGender <;> cases hs : cohort.hasSex <;>
    cases ha : cohort.hasAge <;> cases hy : cohort.hasYearOfBirth <;> simp_all

theorem deriveFrame_hasColumn (cohort : Frame) (y : Int) :
    ∀ c ∈ requiredColumns, hasColumn (deriveFrame cohort y) c = resolvable cohort c := by
  intro c hc
  obtain ⟨f1, f2, f3, f4⟩ := deriveFrame_flags cohort y
  simp only [requiredColumns, List.mem_cons, List.not_mem_nil, or_false] at hc
  rcases hc with rfl | rfl | rfl | rfl <;>
    simp [hasColumn, resolvable, f1, f2, f3, f4]

theorem selectArm_selected_le (df : List Row) (nm : String) (t : Int) (f : Rat)
    {o : Option (List Band)} (hd : OptBandsDisjoint o) :
    (((selectArm df nm t f o).participants).length : Int) ≤
      summaryGet (selectArm df nm t f o) "available_carriers" +
      summaryGet (selectArm df nm t f o) "available_non_carriers" := by
  obtain ⟨_, _, e3, e4⟩ := selectArm_summary df nm t f o
  rw [e3, e4, selectArm_parts, List.length_append]
  have h1 := groupSelect_length_le (g := df.filter (fun r => isE4Carrier r))
    (s := nCarrierTarget t f) hd
  have h2 := groupSelect_length_le (g := df.filter (fun r => !(isE4Carrier r)))
    (s := nNonCarrierTarget t f) hd
  push_cast
  omega

/-! ### The claims -/

/-- C4: stratify is deterministic — two runs on identical cohort table,
configuration, and age-derivation year yield identical results, selections
and summary counts included; the embedding is a pure function of these
inputs, with no source of randomness. -/
theorem claim4_determinism (c1 c2 : Frame) (k1 k2 : StratificationConfig)
    (y1 y2 : Int) (hc : c1 = c2) (hk : k1 = k2) (hy : y1 = y2) :
    stratify c1 k1 y1 = stratify c2 k2 y2 := by
  rw [hc, hk, hy]

/-- Witness for C4 at a concrete cohort and configuration. -/
theorem claim4_determinism_witness :
    stratify wFrame wConfig 2026 = stratify wFrame wConfig 2026 :=
  claim4_determinism wFrame wFrame wConfig wConfig 2026 2026 rfl rfl rfl

/-- C9: the caller's cohort frame is unchanged when stratify returns, on both
the ok path and the error path: the copy taken by the first statement severs
aliasing before the in-place column writes, so the frame the caller holds
after the run equals the input frame, while the run's value is exactly
stratify's. -/
theorem claim9_input_readonly (cohort : Frame) (k : StratificationConfig) (y : Int) :
    (stratifyPair cohort k y).1 = cohort ∧
    (stratifyPair cohort k y).2 = stratify cohort k y :=
  ⟨rfl, rfl⟩

/-- C5: whenever any of the four required fields cannot be resolved —
sample_id or the haplotype-label column missing, gender missing with no sex
column, or age missing with no birth-year column — stratify fails with the
missing-columns (`ConfigurationError`-class) error from the required-column
check, before any exclusion or selection work; the error names exactly the
unresolvable required fields, and no result is produced. -/
theorem claim5_missing_required (cohort : Frame) (k : StratificationConfig) (y : Int)
    (h : ∃ c ∈ requiredColumns, resolvable cohort c = false) :
    stratify cohort k y
      = .error (.missingColumns (missingOf (deriveFrame cohort y))) ∧
    (∀ c ∈ requiredColumns,
      (c ∈ missingOf (deriveFrame cohort y) ↔ resolvable cohort c = false)) := by
  have hiff : ∀ c ∈ requiredColumns,
      (c ∈ missingOf (deriveFrame cohort y) ↔ resolvable cohort c = false) := by
    intro c hc
    unfold missingOf
    rw [List.mem_filter]
    rw [deriveFrame_hasColumn cohort y c hc]
    constructor
    · intro hmem
      simpa using hmem.2
    · intro hres
      exact ⟨hc, by simp [hres]⟩
  refine ⟨?_, hiff⟩
  obtain ⟨c, hc, hres⟩ := h
  have hm : c ∈ missingOf (deriveFrame cohort y) := (hiff c hc).mpr hres
  unfold stratify
  split
  · next hempty =>
    rw [List.isEmpty_iff.mp hempty] at hm
    exact absurd hm (List.not_mem_nil _)
  · rfl

/-- Witness for C5: a frame with neither an age nor a birth-year column. -/
theorem claim5_missing_required_witness :
    stratify wNoAgeFrame wConfig 2026
      = .error (.missingColumns (missingOf (deriveFrame wNoAgeFrame 2026))) ∧
    (∀ c ∈ requiredColumns,
      (c ∈ missingOf (deriveFrame wNoAgeFrame 2026) ↔
        resolvable wNoAgeFrame c = false)) :=
  claim5_missing_required wNoAgeFrame wConfig 2026 ⟨"age", by decide, by decide⟩

/-- C7: an arm is present in the result exactly when its eligible gender
group is non-empty and its configured target count is positive; otherwise
the arm field is `none`, not an empty placeholder. -/
theorem claim7_arm_presence (cohort : Frame) (k : StratificationConfig) (y : Int)
    (res : StratificationResult) (h : stratify cohort k y = .ok res) :
    (res.femaleList.isSome ↔
      (femaleGroup cohort k y ≠ [] ∧ 0 < k.targetFemaleCount)) ∧
    (res.maleList.isSome ↔
      (maleGroup cohort k y ≠ [] ∧ 0 < k.targetMaleCount)) := by
  obtain rfl := stratify_ok h
  constructor <;>
  · simp only [runResult]
    split
    · next hc => simpa using hc
    · next hc => simpa using hc

/-- Witness for C7 at a concrete run. -/
theorem claim7_arm_presence_witness :
    ((runResult wFrame wConfig 2026).femaleList.isSome ↔
      (femaleGroup wFrame wConfig 2026 ≠ [] ∧ 0 < wConfig.targetFemaleCount)) ∧
    ((runResult wFrame wConfig 2026).maleList.isSome ↔
      (maleGroup wFrame wConfig 2026 ≠ [] ∧ 0 < wConfig.targetMaleCount)) :=
  claim7_arm_presence wFrame wConfig 2026 (runResult wFrame wConfig 2026) rfl

/-- C2: the carrier sub-target equals ⌊target_total × carrier_fraction⌋ and
the non-carrier sub-target is target_total minus it, so the truncation
remainder always goes to the non-carrier group; concretely, with target 10,
fraction 1/2, no age bands, and at least five available in each group, both
selected counts are exactly 5. -/
theorem claim2_carrier_split :
    (∀ (t : Int) (f : Rat), 0 ≤ t → 0 ≤ f →
      nCarrierTarget t f = Int.floor ((t : Rat) * f) ∧
      nNonCarrierTarget t f = t - nCarrierTarget t f) ∧
    (∀ df : List Row,
      5 ≤ (df.filter (fun r => isE4Carrier r)).length →
      5 ≤ (df.filter (fun r => !(isE4Carrier r))).length →
      summaryGet (selectArm df "Female" 10 (mkRat 1 2) (some [])) "e4_carriers" = 5 ∧
      summaryGet (selectArm df "Female" 10 (mkRat 1 2) (some [])) "non_carriers" = 5) := by
  constructor
  · intro t f ht hf
    refine ⟨?_, rfl⟩
    have key : (t : Rat) * f = ((t * f.num : Int) : Rat) / ((f.den : Nat) : Rat) := by
      conv_lhs => rw [← Rat.num_div_den f]
      push_cast
      ring
    rw [key, Rat.floor_intCast_div_natCast]
    exact Int.tdiv_eq_ediv (mul_nonneg ht (Rat.num_nonneg.mpr hf)) (by positivity)
  · intro df hc hn
    obtain ⟨e1, e2, _, _⟩ := selectArm_summary df "Female" 10 (mkRat 1 2) (some [])
    rw [e1, e2]
    have h5c : nCarrierTarget 10 (mkRat 1 2) = 5 := by decide
    have h5n : nNonCarrierTarget 10 (mkRat 1 2) = 5 := by decide
    constructor
    · unfold groupSelect
      rw [if_neg (by decide), h5c, pdHead_min_length 5 _ (by decide)]
      omega
    · unfold groupSelect
      rw [if_neg (by decide), h5n, pdHead_min_length 5 _ (by decide)]
      omega

/-- Witness for C2: the quota formulas at 10 × 1/2 and the concrete
ten-record scenario. -/
theorem claim2_carrier_split_witness :
    (nCarrierTarget 10 (mkRat 1 2) = Int.floor (((10 : Int) : Rat) * mkRat 1 2) ∧
      nNonCarrierTarget 10 (mkRat 1 2) = 10 - nCarrierTarget 10 (mkRat 1 2)) ∧
    (summaryGet (selectArm wQuotaDf "Female" 10 (mkRat 1 2) (some [])) "e4_carriers" = 5 ∧
      summaryGet (selectArm wQuotaDf "Female" 10 (mkRat 1 2) (some [])) "non_carriers" = 5) :=
  ⟨claim2_carrier_split.1 10 (mkRat 1 2) (by decide) (by decide),
   claim2_carrier_split.2 wQuotaDf (by decide) (by decide)⟩

/-- C1: with a non-empty band list each band's base quota is
max(1, ⌊sub_target / band_count⌋), so every band with at least one eligible
record contributes at least one selected record even when the sub-target is
smaller than the band count; concretely, sub-target 3 over 7 bands that each
hold an eligible record selects exactly one record per band — 7 records,
exceeding the nominal target of 3 instead of being capped there. -/
theorem claim1_floor_of_one_policy :
    (∀ (df : List Row) (t : Int) (bands : List Band),
      (∀ b ∈ bands, 1 ≤ (df.filter (inBand b)).length) →
      bands.length ≤ (sampleByAgeBands df t bands).length) ∧
    (∀ (df : List Row) (bands : List Band), bands.length = 7 →
      (∀ b ∈ bands, 1 ≤ (df.filter (inBand b)).length) →
      (bandParts df 3 bands).map List.length = List.replicate 7 1 ∧
      (sampleByAgeBands df 3 bands).length = 7) := by
  constructor
  · intro df t bands hb
    simp only [sampleByAgeBands, bandParts]
    exact bandTakes_ge_one (le_max_left 1 _) bands _ hb
  · intro df bands h7 hb
    have hpb : perBandQuota 3 bands.length = 1 := by rw [h7]; decide
    have hparts : (bandParts df 3 bands).map List.length
        = List.replicate bands.length 1 := by
      simp only [bandParts, hpb]
      exact bandTakes_map_length_one bands _ (by omega) hb
    refine ⟨by rw [hparts, h7], ?_⟩
    simp only [sampleByAgeBands]
    rw [List.length_flatten, hparts, h7]
    simp

/-- Witness for C1: one eligible record in each of the seven default bands. -/
theorem claim1_floor_of_one_policy_witness :
    (bandParts wBandDf 3 defaultAgeBands).map List.length = List.replicate 7 1 ∧
    (sampleByAgeBands wBandDf 3 defaultAgeBands).length = 7 :=
  claim1_floor_of_one_policy.2 wBandDf defaultAgeBands rfl (by decide)

/-- C6: when the secondary-allele exclusion flag is set, no selected record's
haplotype label contains "e2" case-insensitively; and on every run no
selected record's label equals the "Indeterminate" sentinel. -/
theorem claim6_exclusion_correct (cohort : Frame) (k : StratificationConfig)
    (y : Int) (res : StratificationResult) (h : stratify cohort k y = .ok res) :
    ∀ r ∈ allSelected res,
      (k.excludeE2Carriers = true → containsCI r.apoe_genotype "e2" = false) ∧
      r.apoe_genotype ≠ "Indeterminate" := by
  obtain rfl := stratify_ok h
  intro r hr
  have hre : r ∈ postExclusion (deriveFrame cohort y) k := by
    simp only [allSelected, runResult] at hr
    rcases List.mem_append.mp hr with h1 | h1
    · exact (List.mem_filter.mp (mem_armParticipants_if h1)).1
    · exact (List.mem_filter.mp (mem_armParticipants_if h1)).1
  unfold postExclusion at hre
  have h2 := List.mem_filter.mp hre
  refine ⟨?_, by simpa using h2.2⟩
  intro hex
  have h1 := h2.1
  rw [if_pos hex] at h1
  simpa using (List.mem_filter.mp h1).2

/-- Witness for C6: the selected carrier row of the small run. -/
theorem claim6_exclusion_correct_witness :
    (wConfig.excludeE2Carriers = true → containsCI wSelRow.apoe_genotype "e2" = false) ∧
    wSelRow.apoe_genotype ≠ "Indeterminate" :=
  claim6_exclusion_correct wFrame wConfig 2026 (runResult wFrame wConfig 2026) rfl
    wSelRow (by decide)

/-- C10: a configuration whose band lists are left unset gets the default
seven closed bands for both genders; after construction the band-free
selection path corresponds exactly to an explicitly supplied empty band
list; and under the all-default configuration every selected record's age
lies within 35 to 69. -/
theorem claim10_default_bands :
    (∀ c : StratificationConfig, c.femaleAgeBands = none →
      (c.postInit).femaleAgeBands = some defaultAgeBands) ∧
    (∀ c : StratificationConfig, c.maleAgeBands = none →
      (c.postInit).maleAgeBands = some defaultAgeBands) ∧
    defaultAgeBands
      = [(35, 39), (40, 44), (45, 49), (50, 54), (55, 59), (60, 64), (65, 69)] ∧
    (∀ c : StratificationConfig,
      (bandsTruthy (c.postInit).femaleAgeBands = false ↔ c.femaleAgeBands = some []) ∧
      (bandsTruthy (c.postInit).maleAgeBands = false ↔ c.maleAgeBands = some [])) ∧
    (∀ (cohort : Frame) (y : Int) (res : StratificationResult) (r : Row),
      stratify cohort defaultConfig y = .ok res → r ∈ allSelected res →
      35 ≤ r.age ∧ r.age ≤ 69) := by
  refine ⟨?_, ?_, rfl, ?_, ?_⟩
  · intro c hc; simp [StratificationConfig.postInit, hc]
  · intro c hc; simp [StratificationConfig.postInit, hc]
  · intro c
    constructor
    · cases hcb : c.femaleAgeBands with
      | none =>
        simp [StratificationConfig.postInit, hcb, bandsTruthy, defaultAgeBands]
      | some l =>
        simp [StratificationConfig.postInit, hcb, bandsTruthy, List.isEmpty_iff]
    · cases hcb : c.maleAgeBands with
      | none =>
        simp [StratificationConfig.postInit, hcb, bandsTruthy, defaultAgeBands]
      | some l =>
        simp [StratificationConfig.postInit, hcb, bandsTruthy, List.isEmpty_iff]
  · intro cohort y res r hok hr
    obtain rfl := stratify_ok hok
    simp only [allSelected, runResult] at hr
    rw [show defaultConfig.femaleAgeBands = some defaultAgeBands from rfl,
      show defaultConfig.maleAgeBands = some defaultAgeBands from rfl] at hr
    have hband : ∃ b ∈ defaultAgeBands, inBand b r = true := by
      rcases List.mem_append.mp hr with h1 | h1
      · split at h1
        · exact mem_selectArm_inBand (by decide) h1
        · simp [armParticipants] at h1
      · split at h1
        · exact mem_selectArm_inBand (by decide) h1
        · simp [armParticipants] at h1
    obtain ⟨b, hb, hrb⟩ := hband
    simp only [defaultAgeBands] at hb
    fin_cases hb <;> (simp [inBand] at hrb; omega)

/-- Witness for C10: the selected row of the small default-config run has an
age inside 35 to 69. -/
theorem claim10_default_bands_witness : 35 ≤ wSelRow.age ∧ wSelRow.age ≤ 69 :=
  claim10_default_bands.2.2.2.2 wFrame 2026 (runResult wFrame defaultConfig 2026)
    wSelRow rfl (by decide)

/-- C3: when the cohort's sample ids are pairwise distinct and each arm's
configured age bands are pairwise non-overlapping, no sample id appears more
than once across the concatenation of both arms' selections — no duplication
across bands, across the carrier and non-carrier groups, or across the two
gender arms. -/
theorem claim3_no_duplicate_selection (cohort : Frame) (k : StratificationConfig)
    (y : Int) (res : StratificationResult)
    (hnd : (cohort.rows.map RawRow.sample_id).Nodup)
    (hf : OptBandsDisjoint k.femaleAgeBands) (hm : OptBandsDisjoint k.maleAgeBands)
    (h : stratify cohort k y = .ok res) :
    ((allSelected res).map Row.sample_id).Nodup := by
  obtain rfl := stratify_ok h
  have hel : ((postExclusion (deriveFrame cohort y) k).map Row.sample_id).Nodup :=
    eligible_sids_nodup hnd
  simp only [allSelected, runResult, List.map_append]
  refine List.Nodup.append ?_ ?_ ?_
  · split
    · exact selectArm_sids_nodup (sublist_sids_nodup (List.filter_sublist _) hel) hf
    · simp [armParticipants]
  · split
    · exact selectArm_sids_nodup (sublist_sids_nodup (List.filter_sublist _) hel) hm
    · simp [armParticipants]
  · refine sids_disjoint (p := fun r => isFemaleGender r.gender)
      (q := fun r => isMaleGender r.gender) hel ?_ ?_ ?_
    · intro r hr
      exact List.mem_filter.mp (mem_armParticipants_if hr)
    · intro r hr
      exact List.mem_filter.mp (mem_armParticipants_if hr)
    · intro r
      exact female_male_incompat r.gender

/-- Witness for C3 at the small six-row run. -/
theorem claim3_no_duplicate_selection_witness :
    ((allSelected (runResult wFrame wConfig 2026)).map Row.sample_id).Nodup :=
  claim3_no_duplicate_selection wFrame wConfig 2026 (runResult wFrame wConfig 2026)
    (by decide)
    (by intro l hl
        rw [show wConfig.femaleAgeBands = some defaultAgeBands from rfl] at hl
        cases hl; decide)
    (by intro l hl
        rw [show wConfig.maleAgeBands = some defaultAgeBands from rfl] at hl
        cases hl; decide)
    rfl

/-- C8: total_selected is the female arm's size plus the male arm's size with
an omitted arm contributing zero, and — when the configured bands are
pairwise non-overlapping — each present arm's selection size is at most its
available carriers plus available non-carriers. -/
theorem claim8_selected_bounds (cohort : Frame) (k : StratificationConfig)
    (y : Int) (res : StratificationResult)
    (hf : OptBandsDisjoint k.femaleAgeBands) (hm : OptBandsDisjoint k.maleAgeBands)
    (h : stratify cohort k y = .ok res) :
    res.totalSelected =
      (armParticipants res.femaleList).length + (armParticipants res.maleList).length ∧
    (∀ l, res.femaleList = some l →
      (l.participants.length : Int) ≤
        summaryGet l "available_carriers" + summaryGet l "available_non_carriers") ∧
    (∀ l, res.maleList = some l →
      (l.participants.length : Int) ≤
        summaryGet l "available_carriers" + summaryGet l "available_non_carriers") := by
  refine ⟨?_, ?_, ?_⟩
  · rcases res with ⟨cfg, fl, ml, e, te⟩
    cases fl <;> cases ml <;> rfl
  · intro l hl
    obtain rfl := stratify_ok h
    simp only [runResult] at hl
    split at hl
    · obtain rfl := Option.some.inj hl
      exact selectArm_selected_le _ _ _ _ hf
    · exact Option.noConfusion hl
  · intro l hl
    obtain rfl := stratify_ok h
    simp only [runResult] at hl
    split at hl
    · obtain rfl := Option.some.inj hl
      exact selectArm_selected_le _ _ _ _ hm
    · exact Option.noConfusion hl

/-- Witness for C8: the bound for the female arm of the small run. -/
theorem claim8_selected_bounds_witness :
    (((selectArm (femaleGroup wFrame wConfig 2026) "Female" wConfig.targetFemaleCount
        wConfig.apoeCarrierFraction wConfig.femaleAgeBands).participants).length : Int) ≤
      summaryGet (selectArm (femaleGroup wFrame wConfig 2026) "Female"
        wConfig.targetFemaleCount wConfig.apoeCarrierFraction wConfig.femaleAgeBands)
        "available_carriers" +
      summaryGet (selectArm (femaleGroup wFrame wConfig 2026) "Female"
        wConfig.targetFemaleCount wConfig.apoeCarrierFraction wConfig.femaleAgeBands)
        "available_non_carriers" :=
  (claim8_selected_bounds wFrame wConfig 2026 (runResult wFrame wConfig 2026)
    (by intro l hl
        rw [show wConfig.femaleAgeBands = some defaultAgeBands from rfl] at hl
        cases hl; decide)
    (by intro l hl
        rw [show wConfig.maleAgeBands = some defaultAgeBands from rfl] at hl
        cases hl; decide)
    rfl).2.1
    (selectArm (femaleGroup wFrame wConfig 2026) "Female" wConfig.targetFemaleCount
      wConfig.apoeCarrierFraction wConfig.femaleAgeBands)
    rfl

end ApoeToolkit
